import Mathlib

/-
  Verification of `src/autosteer/query_span.py` (query-span approximation).

  Shallow embedding conventions:
  * A `HintSet` mirrors the Python class: a knob list (the Python `set` is
    modelled as a `List String` in construction order; set-level facts are
    stated via membership), an optional parent (`dependencies`), the plan
    payload (`Option String`, `none` until a fetch populates it), and the
    `required` flag.  The unused `predicted_runtime` sentinel is omitted: the
    core never reads it.
  * The connector is modelled by an `oracle : List String → String` that maps
    the disabled-knob list (`get_all_knobs()` of the fetched HintSet) to the
    plan text that `connector.explain` returns; the failure sentinel is the
    plan text "FAILED".  Python's `hash` is modelled by an explicit parameter
    `hashFn : String → Int`, so hash collisions remain representable.
  * The two exploration loops are given explicit fuel; every theorem about
    them is fuel-parametric, and concrete runs pick enough fuel to drain the
    frontier.
-/

/-- The `HintSet` class of `query_span.py`: knobs to disable, an optional
parent hint-set (`dependencies`), the fetched plan, and the `required` flag. -/
inductive HintSet : Type where
  | mk (knobs : List String) (dependencies : Option HintSet)
       (plan : Option String) (required : Bool) : HintSet

/-- Decidable equality for `HintSet` (structural; the automatic derivation does
not handle the nested `Option`). -/
def HintSet.decEq : (a b : HintSet) → Decidable (a = b)
  | .mk ks1 none p1 r1, .mk ks2 none p2 r2 =>
      decidable_of_iff (ks1 = ks2 ∧ p1 = p2 ∧ r1 = r2) (by
        constructor
        · rintro ⟨h1, h2, h3⟩; rw [h1, h2, h3]
        · intro h; injection h with h1 h2 h3 h4; exact ⟨h1, h3, h4⟩)
  | .mk _ none _ _, .mk _ (some _) _ _ => isFalse (by intro h; injection h; simp_all)
  | .mk _ (some _) _ _, .mk _ none _ _ => isFalse (by intro h; injection h; simp_all)
  | .mk ks1 (some a) p1 r1, .mk ks2 (some b) p2 r2 =>
      match HintSet.decEq a b with
      | isTrue hab =>
        decidable_of_iff (ks1 = ks2 ∧ p1 = p2 ∧ r1 = r2) (by
          constructor
          · rintro ⟨h1, h2, h3⟩; rw [h1, h2, h3, hab]
          · intro h; injection h with h1 h2 h3 h4; exact ⟨h1, h3, h4⟩)
      | isFalse hab => isFalse (by intro h; injection h; simp_all)

instance : DecidableEq HintSet := HintSet.decEq

/-- Field accessor for `knobs`. -/
def HintSet.knobs : HintSet → List String
  | .mk ks _ _ _ => ks

/-- Field accessor for `dependencies`. -/
def HintSet.dependencies : HintSet → Option HintSet
  | .mk _ d _ _ => d

/-- Field accessor for `plan`. -/
def HintSet.plan : HintSet → Option String
  | .mk _ _ p _ => p

/-- Field accessor for `required`. -/
def HintSet.required : HintSet → Bool
  | .mk _ _ _ r => r

/-- `hintset.plan = p` (the in-place mutation performed by `get_query_plan`,
modelled functionally: the fetched object is the one used downstream). -/
def HintSet.setPlan : HintSet → String → HintSet
  | .mk ks d _ r, p => .mk ks d (some p) r

/-- `required_optimizer.required = True` (line 74). -/
def HintSet.setRequired : HintSet → HintSet
  | .mk ks d p _ => .mk ks d p true

/-- `get_all_knobs` (lines 23-25):
`list(self.knobs) + (self.dependencies.get_all_knobs() if self.dependencies is not None else [])`. -/
def HintSet.get_all_knobs : HintSet → List String
  | .mk ks none _ _ => ks ++ []
  | .mk ks (some p) _ _ => ks ++ p.get_all_knobs

/-- `__str__` (lines 27-29):
`res = '' if self.dependencies is None else (',' + str(self.dependencies))`;
`return ','.join(self.knobs) + res`. -/
def HintSet.toStr : HintSet → String
  | .mk ks none _ _ => String.intercalate "," ks ++ ""
  | .mk ks (some p) _ _ => String.intercalate "," ks ++ ("," ++ p.toStr)

/-- Modelled from the spec's words, for comparison with the code's
`HintSet.toStr` (claim C2): own knobs joined by the separator, *prefixed* by
the parent's string form when present (parent's form first, then the child's
own knobs). -/
def HintSet.strSpecParentFirst : HintSet → String
  | .mk ks none _ _ => String.intercalate "," ks
  | .mk ks (some p) _ _ => p.strSpecParentFirst ++ "," ++ String.intercalate "," ks

/-- The chain of ancestors reached by following `dependencies` to the root. -/
def HintSet.ancestors : HintSet → List HintSet
  | .mk _ none _ _ => []
  | .mk _ (some p) _ _ => p :: p.ancestors

example : (HintSet.mk ["a"] (some (HintSet.mk ["b"] none none false)) none false).toStr = "a,b" := by decide
example : (HintSet.mk ["a"] (some (HintSet.mk ["b"] none none false)) none false).strSpecParentFirst = "b,a" := by decide
example : (HintSet.mk ["a"] (some (HintSet.mk ["b"] none none false)) none false).get_all_knobs = ["a", "b"] := by decide

/-- The hash of a fetched plan (`hash(res.plan)`).  In every run modelled here
the plan is populated before it is hashed, so the `none` branch is unreachable. -/
def phash (hashFn : String → Int) : Option String → Int
  | some p => hashFn p
  | none => hashFn ""

/-- `get_query_plan` (lines 32-39): disable `get_all_knobs()` on a fresh
connector, explain the query, and store the resulting plan on the hint-set.
The connector and the SQL text are folded into `oracle`, which maps the
disabled-knob list to the plan text that `connector.explain` returns. -/
def get_query_plan (oracle : List String → String) (hintset : HintSet) : HintSet :=
  hintset.setPlan (oracle hintset.get_all_knobs)

/-- Membership test of the `required_optimizers_indexes` bucket (line 67):
`hashes == failed_plan_hash`. -/
def isFailedB (failed_plan_hash h : Int) : Bool :=
  h == failed_plan_hash

/-- Membership test of the `effective_optimizers_indexes` bucket (line 66):
`(hashes != default_plan_hash) & (hashes != failed_plan_hash)`. -/
def isAlternativeB (default_plan_hash failed_plan_hash h : Int) : Bool :=
  (h != default_plan_hash) && (h != failed_plan_hash)

/-- The leftover bucket: indexes in neither `np.where` selection (these
hint-sets stay in the pending pool after line 79's `np.delete`). -/
def isSameB (default_plan_hash failed_plan_hash h : Int) : Bool :=
  !(isFailedB failed_plan_hash h) && !(isAlternativeB default_plan_hash failed_plan_hash h)

/-- The hash of the failure sentinel, `hash(FAILED)` (line 63). -/
def failedHash (hashFn : String → Int) : Int :=
  hashFn "FAILED"

/-- The baseline fetch (line 54): explain with the empty-knob hint-set. -/
def baselineFetched (oracle : List String → String) : HintSet :=
  get_query_plan oracle (HintSet.mk [] none none false)

/-- The singleton candidates of line 50, fetched as on lines 57-58 (the fetch
returns the same objects, now populated). -/
def singletonResults (oracle : List String → String) (catalog : List String) : List HintSet :=
  (catalog.map (fun knob => HintSet.mk [knob] none none false)).map (get_query_plan oracle)

/-- `hash(default_plan.plan)` (line 61). -/
def defaultHash (hashFn : String → Int) (oracle : List String → String) : Int :=
  phash hashFn (baselineFetched oracle).plan

/-- The `required_optimizers` of lines 73-76, with their `required` flag set. -/
def requiredPart (hashFn : String → Int) (oracle : List String → String)
    (catalog : List String) : List HintSet :=
  ((singletonResults oracle catalog).filter
    (fun hs => isFailedB (failedHash hashFn) (phash hashFn hs.plan))).map HintSet.setRequired

/-- The effective singletons put on the `new_effective_optimizers` queue
(lines 70-72), in index order. -/
def effectivePart (hashFn : String → Int) (oracle : List String → String)
    (catalog : List String) : List HintSet :=
  (singletonResults oracle catalog).filter
    (fun hs => isAlternativeB (defaultHash hashFn oracle) (failedHash hashFn) (phash hashFn hs.plan))

/-- The pending pool after line 79's `np.delete`: the singleton results whose
indexes landed in neither bucket (the fetched objects are the pool objects). -/
def samePool (hashFn : String → Int) (oracle : List String → String)
    (catalog : List String) : List HintSet :=
  (singletonResults oracle catalog).filter
    (fun hs => isSameB (defaultHash hashFn oracle) (failedHash hashFn) (phash hashFn hs.plan))

/-- One expansion round of the iterative strategy (lines 104-110): fetch a
child `HintSet(hs.knobs, effective_optimizer)` for every pending `hs`, and keep
those classified alternative against the popped optimizer's plan hash. -/
def iterRound (hashFn : String → Int) (oracle : List String → String)
    (E : HintSet) (pool : List HintSet) : List HintSet :=
  let default_plan_hash := phash hashFn E.plan
  let results := pool.map (fun hs => get_query_plan oracle (HintSet.mk hs.knobs (some E) none false))
  results.filter (fun c => isAlternativeB default_plan_hash (failedHash hashFn) (phash hashFn c.plan))

/-- Erase the first element equal to `a` (helper for `removeLastEq`). -/
def eraseFirstHS (a : HintSet) : List HintSet → List HintSet
  | [] => []
  | x :: xs => if x = a then xs else x :: eraseFirstHS a xs

/-- The deletion loop of lines 115-119: scan `hintsets` from the last index
down, delete the first entry for which `hintsets[i] == alternative_optimizer`,
then break.  `HintSet` defines no `__eq__`, so the Python `==` is reference
identity; a pool entry (a parentless singleton) is never the same object as the
freshly constructed child being tested, so the branch never fires.  Structural
equality models this faithfully on this path: pool entries have
`dependencies = none` while every candidate carries `some` parent. -/
def removeLastEq (pool : List HintSet) (alt : HintSet) : List HintSet :=
  (eraseFirstHS alt pool.reverse).reverse

/-- State of the iterative expansion loop (lines 103-119): the FIFO frontier
`new_effective_optimizers`, the pending pool `hintsets`, and `query_span`. -/
structure IterState where
  queue : List HintSet
  pool : List HintSet
  span : List HintSet

/-- Lines 112-119: push each newly alternative optimizer onto the frontier and
run the deletion attempt against the pending pool, in discovery order. -/
def pushAlts : List HintSet → List HintSet → List HintSet → List HintSet × List HintSet
  | [], queue, pool => (queue, pool)
  | alt :: rest, queue, pool => pushAlts rest (queue ++ [alt]) (removeLastEq pool alt)

/-- The iterative expansion loop (`while not new_effective_optimizers.empty()`,
lines 103-119), with explicit fuel. -/
def iterLoop (hashFn : String → Int) (oracle : List String → String) :
    Nat → IterState → IterState
  | 0, s => s
  | fuel + 1, s =>
    match s.queue with
    | [] => s
    | E :: rest =>
      let alts := iterRound hashFn oracle E s.pool
      let qp := pushAlts alts rest s.pool

      iterLoop hashFn oracle fuel { queue := qp.1, pool := qp.2, span := s.span ++ [E] }

/-- State of the batch expansion loop (lines 89-100): `query_span`, the
cumulative `all_effective_optimizers`, the previous round's
`results[effective_optimizers_indexes]` still to be appended at the loop top,
and the `found_new_optimizers` flag. -/
structure BatchState where
  span : List HintSet
  allEff : HintSet
  toAppend : List HintSet
  found : Bool

/-- The alternatives of one batch round (lines 92-97): fetch the cumulative
hint-set as the round baseline, fetch every pending knob chained under it, and
keep the candidates classified alternative. -/
def roundAlts (hashFn : String → Int) (oracle : List String → String)
    (pool : List HintSet) (allEff : HintSet) : List HintSet :=
  let fetchedAllEff := get_query_plan oracle allEff
  let default_plan_hash := phash hashFn fetchedAllEff.plan
  let results := pool.map
    (fun hs => get_query_plan oracle (HintSet.mk hs.knobs (some fetchedAllEff) none false))
  results.filter (fun c => isAlternativeB default_plan_hash (failedHash hashFn) (phash hashFn c.plan))

/-- One iteration of the batch `while` body (lines 90-100): append the previous
round's alternatives to the span, compute this round's alternatives, fold their
knobs into the cumulative union, and refresh `found_new_optimizers`. -/
def batchRound (hashFn : String → Int) (oracle : List String → String)
    (pool : List HintSet) (s : BatchState) : BatchState :=
  let alts := roundAlts hashFn oracle pool s.allEff
  { span := s.span ++ s.toAppend
    allEff := alts.foldl
      (fun acc na => HintSet.mk (acc.knobs.union na.knobs) none none false) s.allEff
    toAppend := alts
    found := decide (0 < alts.length) }

/-- The batch expansion loop (`while found_new_optimizers`, lines 89-100), with
explicit fuel. -/
def batchLoop (hashFn : String → Int) (oracle : List String → String)
    (pool : List HintSet) : Nat → BatchState → BatchState
  | 0, s => s
  | fuel + 1, s =>
    if s.found then batchLoop hashFn oracle pool fuel (batchRound hashFn oracle pool s) else s

/-- The initial batch state (lines 88-90): the cumulative hint-set is the
deduplicated union of the effective singletons' knobs (`set(disabled_knobs)`),
and the effective singletons are still pending their loop-top span append. -/
def batchInit (hashFn : String → Int) (oracle : List String → String)
    (catalog : List String) : BatchState :=
  let effective := effectivePart hashFn oracle catalog
  { span := baselineFetched oracle :: requiredPart hashFn oracle catalog
    allEff := HintSet.mk ((effective.foldr (fun hs acc => hs.knobs ++ acc) []).eraseDups) none none false
    toAppend := effective
    found := true }

/-- `approximate_query_span` (lines 46-124): the singleton round, followed by
one of the two expansion strategies or the plain frontier drain. -/
def approximate_query_span (hashFn : String → Int) (oracle : List String → String)
    (catalog : List String) (find_alternative_rules batch_wise : Bool) (fuel : Nat) :
    List HintSet :=
  let span1 := baselineFetched oracle :: requiredPart hashFn oracle catalog
  if find_alternative_rules then
    if batch_wise then
      (batchLoop hashFn oracle (samePool hashFn oracle catalog) fuel
        (batchInit hashFn oracle catalog)).span
    else
      (iterLoop hashFn oracle fuel
        { queue := effectivePart hashFn oracle catalog
          pool := samePool hashFn oracle catalog
          span := span1 }).span
  else
    span1 ++ effectivePart hashFn oracle catalog

/-- The storage operations visible to this module (section 6 of the design):
`register_query`, `register_optimizer`, `register_optimizer_dependency`. -/
inductive StorageOp : Type where
  | registerQuery (query_id : String) : StorageOp
  | registerOptimizer (query_id key table : String) : StorageOp
  | registerOptimizerDependency (query_id child_key parent_key table : String) : StorageOp
deriving DecidableEq

/-- Insertion of a string into a sorted list (models Python `sorted`). -/
def insortStr (x : String) : List String → List String
  | [] => [x]
  | y :: ys => if x ≤ y then x :: y :: ys else y :: insortStr x ys

/-- Python `sorted` on the knob set. -/
def sortStr (l : List String) : List String :=
  l.foldr insortStr []

/-- `','.join(sorted(optimizer.knobs))` (lines 139-141). -/
def sortedKnobKey (hs : HintSet) : String :=
  String.intercalate "," (sortStr hs.knobs)

/-- The persistence loop of `run_get_query_span` (lines 137-141): one
`register_optimizer` per span entry and, when `dependencies` is non-absent, one
`register_optimizer_dependency` whose child and parent keys are both
`','.join(sorted(optimizer.knobs))`. -/
def persistSpan (query_path : String) : List HintSet → List StorageOp
  | [] => []
  | optimizer :: rest =>
    StorageOp.registerOptimizer query_path (sortedKnobKey optimizer) "query_effective_optimizers"
      :: ((if optimizer.dependencies.isSome then
            [StorageOp.registerOptimizerDependency query_path (sortedKnobKey optimizer)
              (sortedKnobKey optimizer) "query_effective_optimizers_dependencies"]
          else []) ++ persistSpan query_path rest)

/-- `run_get_query_span` (lines 127-141): register the query, compute the span
with `find_alternative_rules=False, batch_wise=False`, and persist it.  The SQL
text is already folded into `oracle`. -/
def run_get_query_span (hashFn : String → Int) (oracle : List String → String)
    (catalog : List String) (fuel : Nat) (query_path : String) : List StorageOp :=
  StorageOp.registerQuery query_path
    :: persistSpan query_path (approximate_query_span hashFn oracle catalog false false fuel)

/-- A concrete hash assignment for the plan texts of the test scenario. -/
def cHash : String → Int := fun s =>
  if s = "P0" then 0
  else if s = "P1" then 1
  else if s = "P2" then 2
  else if s = "P3" then 3
  else if s = "P4" then 4
  else if s = "FAILED" then 9
  else 100

/-- A concrete connector behaviour: the baseline yields plan P0; disabling k1
alone yields P1, k2 alone yields P2, k3 alone leaves the plan unchanged (P0),
and k4 alone breaks plan generation; under the alternatives k1 and k2, the
still-pending knob k3 produces the new plans P3 and P4 respectively. -/
def cOracle : List String → String := fun ks =>
  if ks = [] then "P0"
  else if ks = ["k1"] then "P1"
  else if ks = ["k2"] then "P2"
  else if ks = ["k3"] then "P0"
  else if ks = ["k4"] then "FAILED"
  else if ks = ["k3", "k1"] then "P3"
  else if ks = ["k3", "k2"] then "P4"
  else if ks = ["k3", "k3", "k1"] then "P3"
  else if ks = ["k3", "k3", "k2"] then "P4"
  else "P0"

/-- The three-knob catalog of the iterative-strategy scenario. -/
def cCatalog : List String := ["k1", "k2", "k3"]

/-- The four-knob catalog, whose fourth knob breaks plan generation. -/
def cCatalog4 : List String := ["k1", "k2", "k3", "k4"]

/-- The iterative-strategy run on the three-knob scenario. -/
def spanIter : List HintSet :=
  approximate_query_span cHash cOracle cCatalog true false 6

example :
    (spanIter.filter (fun hs => hs.knobs == ["k3"])).map
      (fun hs => hs.dependencies.map HintSet.knobs) = [some ["k1"], some ["k2"]] := by decide

example : spanIter.length = 5 := by decide

example :
    (approximate_query_span cHash cOracle cCatalog4 false false 0).map HintSet.knobs
      = [[], ["k4"], ["k1"], ["k2"]] := by decide

example :
    (approximate_query_span cHash cOracle cCatalog4 false false 0).map HintSet.required
      = [false, true, false, false] := by decide

@[simp] lemma HintSet.knobs_mk (ks d p r) : (HintSet.mk ks d p r).knobs = ks := rfl

@[simp] lemma HintSet.dependencies_mk (ks d p r) : (HintSet.mk ks d p r).dependencies = d := rfl

@[simp] lemma HintSet.plan_mk (ks d p r) : (HintSet.mk ks d p r).plan = p := rfl

@[simp] lemma HintSet.required_mk (ks d p r) : (HintSet.mk ks d p r).required = r := rfl

@[simp] lemma HintSet.setPlan_mk (ks d p r pl) :
    (HintSet.mk ks d p r).setPlan pl = HintSet.mk ks d (some pl) r := rfl

@[simp] lemma HintSet.setRequired_mk (ks d p r) :
    (HintSet.mk ks d p r).setRequired = HintSet.mk ks d p true := rfl

@[simp] lemma HintSet.setPlan_knobs (hs : HintSet) (pl) : (hs.setPlan pl).knobs = hs.knobs := by
  cases hs; rfl

@[simp] lemma HintSet.setPlan_dependencies (hs : HintSet) (pl) :
    (hs.setPlan pl).dependencies = hs.dependencies := by cases hs; rfl

@[simp] lemma HintSet.setPlan_plan (hs : HintSet) (pl) : (hs.setPlan pl).plan = some pl := by
  cases hs; rfl

@[simp] lemma HintSet.setPlan_required (hs : HintSet) (pl) :
    (hs.setPlan pl).required = hs.required := by cases hs; rfl

@[simp] lemma HintSet.setRequired_knobs (hs : HintSet) : hs.setRequired.knobs = hs.knobs := by
  cases hs; rfl

@[simp] lemma HintSet.setRequired_dependencies (hs : HintSet) :
    hs.setRequired.dependencies = hs.dependencies := by cases hs; rfl

@[simp] lemma HintSet.setRequired_plan (hs : HintSet) : hs.setRequired.plan = hs.plan := by
  cases hs; rfl

@[simp] lemma HintSet.setRequired_required (hs : HintSet) : hs.setRequired.required = true := by
  cases hs; rfl

@[simp] lemma get_query_plan_def (oracle : List String → String) (hs : HintSet) :
    get_query_plan oracle hs = hs.setPlan (oracle hs.get_all_knobs) := rfl

/-- Shape of a singleton-round result: a fetched one-knob parentless hint-set. -/
lemma mem_singletonResults {oracle catalog hs} (h : hs ∈ singletonResults oracle catalog) :
    ∃ k ∈ catalog, hs = HintSet.mk [k] none (some (oracle [k])) false := by
  simp only [singletonResults, List.mem_map] at h
  obtain ⟨x, hx, hxeq⟩ := h
  obtain ⟨k, hk, hkeq⟩ := hx
  refine ⟨k, hk, ?_⟩
  subst hkeq hxeq
  rfl

/-- Shape of a `requiredPart` entry: a failed singleton, `required` set. -/
lemma mem_requiredPart {hashFn oracle catalog hs}
    (h : hs ∈ requiredPart hashFn oracle catalog) :
    ∃ k ∈ catalog, hs = HintSet.mk [k] none (some (oracle [k])) true
      ∧ hashFn (oracle [k]) = failedHash hashFn := by
  simp only [requiredPart, List.mem_map, List.mem_filter] at h
  obtain ⟨x, ⟨hx, hcond⟩, hxeq⟩ := h
  obtain ⟨k, hk, hkeq⟩ := mem_singletonResults hx
  subst hkeq
  refine ⟨k, hk, ?_, ?_⟩
  · subst hxeq; rfl
  · simpa [isFailedB, phash] using hcond

/-- Shape of an `effectivePart` entry: an alternative singleton. -/
lemma mem_effectivePart {hashFn oracle catalog hs}
    (h : hs ∈ effectivePart hashFn oracle catalog) :
    ∃ k ∈ catalog, hs = HintSet.mk [k] none (some (oracle [k])) false
      ∧ hashFn (oracle [k]) ≠ defaultHash hashFn oracle
      ∧ hashFn (oracle [k]) ≠ failedHash hashFn := by
  simp only [effectivePart, List.mem_filter] at h
  obtain ⟨hx, hcond⟩ := h
  obtain ⟨k, hk, hkeq⟩ := mem_singletonResults hx
  subst hkeq
  have hc : hashFn (oracle [k]) ≠ defaultHash hashFn oracle
      ∧ hashFn (oracle [k]) ≠ failedHash hashFn := by
    constructor <;> simp_all [isAlternativeB, phash]
  exact ⟨k, hk, rfl, hc.1, hc.2⟩

/-- Shape of an `iterRound` alternative: a fetched child of the popped
optimizer, whose plan hash differs from both the local baseline and the
failure sentinel. -/
lemma mem_iterRound {hashFn oracle E pool c} (h : c ∈ iterRound hashFn oracle E pool) :
    (∃ hs ∈ pool, c = HintSet.mk hs.knobs (some E)
        (some (oracle (hs.knobs ++ E.get_all_knobs))) false)
      ∧ phash hashFn c.plan ≠ phash hashFn E.plan
      ∧ phash hashFn c.plan ≠ failedHash hashFn := by
  simp only [iterRound, List.mem_filter, List.mem_map] at h
  obtain ⟨⟨hs, hhs, hceq⟩, hcond⟩ := h
  constructor
  · refine ⟨hs, hhs, ?_⟩
    subst hceq
    simp [HintSet.get_all_knobs]
  · simpa [isAlternativeB, not_and_or, ne_eq] using
      (by simpa [isAlternativeB] using hcond : (phash hashFn c.plan != phash hashFn E.plan)
        && (phash hashFn c.plan != failedHash hashFn) = true)

/-- Shape of a `roundAlts` alternative: a fetched child of the fetched
cumulative hint-set, whose plan hash differs from the round baseline and the
failure sentinel. -/
lemma mem_roundAlts {hashFn oracle pool allEff c}
    (h : c ∈ roundAlts hashFn oracle pool allEff) :
    (∃ hs ∈ pool, c = HintSet.mk hs.knobs (some (get_query_plan oracle allEff))
        (some (oracle (hs.knobs ++ (get_query_plan oracle allEff).get_all_knobs))) false)
      ∧ phash hashFn c.plan ≠ phash hashFn (get_query_plan oracle allEff).plan
      ∧ phash hashFn c.plan ≠ failedHash hashFn := by
  simp only [roundAlts, List.mem_filter, List.mem_map] at h
  obtain ⟨⟨hs, hhs, hceq⟩, hcond⟩ := h
  constructor
  · refine ⟨hs, hhs, ?_⟩
    subst hceq
    simp [HintSet.get_all_knobs]
  · simpa [isAlternativeB, not_and_or, ne_eq] using
      (by simpa [isAlternativeB] using hcond :
        (phash hashFn c.plan != phash hashFn (get_query_plan oracle allEff).plan)
          && (phash hashFn c.plan != failedHash hashFn) = true)

/-- The frontier after pushing a round's alternatives is the old frontier
followed by the alternatives, in discovery order. -/
lemma pushAlts_fst : ∀ (alts queue pool : List HintSet),
    (pushAlts alts queue pool).1 = queue ++ alts
  | [], queue, pool => by simp [pushAlts]
  | alt :: rest, queue, pool => by
    rw [pushAlts, pushAlts_fst rest]
    simp

/-- Master invariant of the iterative loop: the span only grows, every new
span entry came off the frontier, and the frontier only ever holds singleton
effective optimizers or round alternatives (property `P`). -/
lemma iterLoop_span_ext (hashFn : String → Int) (oracle : List String → String)
    (P : HintSet → Prop)
    (hR : ∀ E pool c, c ∈ iterRound hashFn oracle E pool → P c) :
    ∀ (fuel : Nat) (s : IterState), (∀ q ∈ s.queue, P q) →
      ∃ t, (iterLoop hashFn oracle fuel s).span = s.span ++ t ∧ ∀ x ∈ t, P x
  | 0, s, _ => ⟨[], by simp [iterLoop], by simp⟩
  | fuel + 1, s, hQ => by
    rcases hq : s.queue with _ | ⟨E, rest⟩
    · exact ⟨[], by simp [iterLoop, hq], by simp⟩
    · have hPE : P E := hQ E (by rw [hq]; exact List.mem_cons_self E rest)
      have hQ' : ∀ q ∈ (pushAlts (iterRound hashFn oracle E s.pool) rest s.pool).1, P q := by
        intro q hqmem
        rw [pushAlts_fst] at hqmem
        rcases List.mem_append.mp hqmem with h | h
        · exact hQ q (by rw [hq]; exact List.mem_cons_of_mem E h)
        · exact hR E s.pool q h
      obtain ⟨t', ht', hPt'⟩ := iterLoop_span_ext hashFn oracle P hR fuel
        { queue := (pushAlts (iterRound hashFn oracle E s.pool) rest s.pool).1
          pool := (pushAlts (iterRound hashFn oracle E s.pool) rest s.pool).2
          span := s.span ++ [E] } hQ'
      refine ⟨E :: t', ?_, ?_⟩
      · simp only [iterLoop, hq]
        rw [ht']
        simp
      · intro x hx
        rcases List.mem_cons.mp hx with h | h
        · exact h ▸ hPE
        · exact hPt' x h

/-- The iterative span is append-only in the fuel: running one more round
never rewrites what is already in the span. -/
lemma iterLoop_span_mono (hashFn : String → Int) (oracle : List String → String) :
    ∀ (fuel : Nat) (s : IterState), ∃ t,
      (iterLoop hashFn oracle (fuel + 1) s).span = (iterLoop hashFn oracle fuel s).span ++ t
  | 0, ⟨[], pool, span⟩ => ⟨[], by simp [iterLoop]⟩
  | 0, ⟨E :: rest, pool, span⟩ => ⟨[E], rfl⟩
  | fuel + 1, ⟨[], pool, span⟩ => ⟨[], by simp [iterLoop]⟩
  | fuel + 1, ⟨E :: rest, pool, span⟩ => by
    have h1 : iterLoop hashFn oracle (fuel + 1 + 1) ⟨E :: rest, pool, span⟩
        = iterLoop hashFn oracle (fuel + 1)
            { queue := (pushAlts (iterRound hashFn oracle E pool) rest pool).1
              pool := (pushAlts (iterRound hashFn oracle E pool) rest pool).2
              span := span ++ [E] } := rfl
    have h2 : iterLoop hashFn oracle (fuel + 1) ⟨E :: rest, pool, span⟩
        = iterLoop hashFn oracle fuel
            { queue := (pushAlts (iterRound hashFn oracle E pool) rest pool).1
              pool := (pushAlts (iterRound hashFn oracle E pool) rest pool).2
              span := span ++ [E] } := rfl
    rw [h1, h2]
    exact iterLoop_span_mono hashFn oracle fuel _

/-- Master invariant of the batch loop: the span only grows, and every new
span entry is one of the pending loop-top appends or a later round
alternative (property `P`). -/
lemma batchLoop_span_ext (hashFn : String → Int) (oracle : List String → String)
    (pool : List HintSet) (P : HintSet → Prop)
    (hR : ∀ allEff c, c ∈ roundAlts hashFn oracle pool allEff → P c) :
    ∀ (fuel : Nat) (s : BatchState), (∀ x ∈ s.toAppend, P x) →
      ∃ t, (batchLoop hashFn oracle pool fuel s).span = s.span ++ t ∧ ∀ x ∈ t, P x
  | 0, s, _ => ⟨[], by simp [batchLoop], by simp⟩
  | fuel + 1, s, hA => by
    by_cases hf : s.found
    · have hA' : ∀ x ∈ (batchRound hashFn oracle pool s).toAppend, P x := by
        intro x hx
        exact hR s.allEff x hx
      obtain ⟨t', ht', hPt'⟩ :=
        batchLoop_span_ext hashFn oracle pool P hR fuel (batchRound hashFn oracle pool s) hA'
      refine ⟨s.toAppend ++ t', ?_, ?_⟩
      · simp only [batchLoop, hf, if_true]
        rw [ht']
        simp [batchRound]
      · intro x hx
        rcases List.mem_append.mp hx with h | h
        · exact hA x h
        · exact hPt' x h
    · exact ⟨[], by simp [batchLoop, hf], by simp⟩

/-- The batch span is append-only in the fuel. -/
lemma batchLoop_span_mono (hashFn : String → Int) (oracle : List String → String)
    (pool : List HintSet) :
    ∀ (fuel : Nat) (s : BatchState), ∃ t,
      (batchLoop hashFn oracle pool (fuel + 1) s).span
        = (batchLoop hashFn oracle pool fuel s).span ++ t
  | 0, s => by
    by_cases hf : s.found
    · exact ⟨s.toAppend, by simp [batchLoop, hf, batchRound]⟩
    · exact ⟨[], by simp [batchLoop, hf]⟩
  | fuel + 1, s => by
    by_cases hf : s.found
    · simp only [batchLoop, hf, if_true]
      exact batchLoop_span_mono hashFn oracle pool fuel _
    · exact ⟨[], by simp [batchLoop, hf]⟩

/-- Folding alternatives into the cumulative union never loses a knob. -/
lemma mem_foldl_union_of_mem_acc :
    ∀ (l : List HintSet) (acc : HintSet) (k : String), k ∈ acc.knobs →
      k ∈ (l.foldl (fun acc na => HintSet.mk (acc.knobs.union na.knobs) none none false) acc).knobs
  | [], _, _, h => h
  | na :: rest, acc, k, h =>
    mem_foldl_union_of_mem_acc rest _ k
      (by simp only [HintSet.knobs_mk]; exact List.mem_union_left h na.knobs)

/-- Every knob of the folded cumulative union came from the accumulator or
from one of the folded alternatives. -/
lemma mem_foldl_union :
    ∀ (l : List HintSet) (acc : HintSet) (k : String),
      k ∈ (l.foldl (fun acc na => HintSet.mk (acc.knobs.union na.knobs) none none false) acc).knobs →
      k ∈ acc.knobs ∨ ∃ c ∈ l, k ∈ c.knobs
  | [], _, _, h => Or.inl h
  | na :: rest, acc, k, h => by
    rcases mem_foldl_union rest _ k h with h' | ⟨c, hc, hk⟩
    · rcases (List.mem_union_iff).mp (by simpa using h') with h'' | h''
      · exact Or.inl h''
      · exact Or.inr ⟨na, by simp, h''⟩
    · exact Or.inr ⟨c, by simp [hc], hk⟩

/-- `approximate_query_span` with exploration disabled: the frontier is
drained straight into the span (lines 120-123). -/
lemma aqs_drain (hashFn : String → Int) (oracle : List String → String)
    (catalog : List String) (bw : Bool) (fuel : Nat) :
    approximate_query_span hashFn oracle catalog false bw fuel
      = (baselineFetched oracle :: requiredPart hashFn oracle catalog)
          ++ effectivePart hashFn oracle catalog := rfl

/-- `approximate_query_span` in the iterative strategy (lines 102-119). -/
lemma aqs_iter (hashFn : String → Int) (oracle : List String → String)
    (catalog : List String) (fuel : Nat) :
    approximate_query_span hashFn oracle catalog true false fuel
      = (iterLoop hashFn oracle fuel
          { queue := effectivePart hashFn oracle catalog
            pool := samePool hashFn oracle catalog
            span := baselineFetched oracle :: requiredPart hashFn oracle catalog }).span := rfl

/-- `approximate_query_span` in the batch strategy (lines 87-100). -/
lemma aqs_batch (hashFn : String → Int) (oracle : List String → String)
    (catalog : List String) (fuel : Nat) :
    approximate_query_span hashFn oracle catalog true true fuel
      = (batchLoop hashFn oracle (samePool hashFn oracle catalog) fuel
          (batchInit hashFn oracle catalog)).span := rfl

/-- When no span entry has a parent, the persistence loop emits no
`register_optimizer_dependency` operation. -/
lemma persistSpan_no_dep (q : String) :
    ∀ (span : List HintSet), (∀ hs ∈ span, hs.dependencies = none) →
      ∀ op ∈ persistSpan q span, ∀ qq c p t, op ≠ StorageOp.registerOptimizerDependency qq c p t
  | [], _, op, hop => by simp [persistSpan] at hop
  | hs :: rest, hdep, op, hop => by
    have hnone : hs.dependencies = none := hdep hs (by simp)
    simp only [persistSpan, hnone, Option.isSome_none, Bool.false_eq_true, if_false,
      List.nil_append, List.mem_cons] at hop
    rcases hop with h | h
    · intro qq c p t
      subst h
      intro hcontra
      cases hcontra
    · exact persistSpan_no_dep q rest (fun x hx => hdep x (by simp [hx])) op h

/-- The resolved knob list of a hint-set contains a knob exactly when the knob
belongs to the hint-set itself or to one of its ancestors. -/
lemma get_all_knobs_mem : ∀ (hs : HintSet) (k : String),
    k ∈ hs.get_all_knobs ↔ k ∈ hs.knobs ∨ ∃ a ∈ hs.ancestors, k ∈ a.knobs
  | .mk ks none pl r, k => by
    simp [HintSet.get_all_knobs, HintSet.ancestors]
  | .mk ks (some p) pl r, k => by
    have ih := get_all_knobs_mem p k
    simp only [HintSet.get_all_knobs, HintSet.ancestors, HintSet.knobs_mk, List.mem_append,
      List.mem_cons, ih]
    constructor
    · rintro (h | h | ⟨a, ha, hk⟩)
      · exact Or.inl h
      · exact Or.inr ⟨p, Or.inl rfl, h⟩
      · exact Or.inr ⟨a, Or.inr ha, hk⟩
    · rintro (h | ⟨a, (rfl | ha), hk⟩)
      · exact Or.inl h
      · exact Or.inr (Or.inl hk)
      · exact Or.inr (Or.inr ⟨a, ha, hk⟩)

/-- A one-knob hint-set chained under a one-knob parent, for claim C2. -/
def exC2 : HintSet :=
  HintSet.mk ["a"] (some (HintSet.mk ["b"] none none false)) none false

/-- C2 counterexample: the canonical string form of a child `{a}` whose parent
is `{b}` is `"a,b"` — the code puts the child's own knobs first and the
parent's form after the separator, not the other way round as the spec's
parent-prefixed reading (`"b,a"`) would require. -/
theorem C2_counterexample : HintSet.toStr exC2 ≠ HintSet.strSpecParentFirst exC2 := by
  decide

/-- C2 (amended): for every HintSet, the canonical string form equals its own
knobs joined by the fixed separator `","`, recursively *suffixed* by the
parent's string form when the dependencies reference is present — the child's
own knobs come first, then the separator, then the parent's form; with no
parent it is exactly the joined own knobs. -/
theorem C2_canonical_string :
    (∀ (ks : List String) (p : HintSet) (pl : Option String) (r : Bool),
        (HintSet.mk ks (some p) pl r).toStr
          = String.intercalate "," ks ++ ("," ++ p.toStr))
      ∧ ∀ (ks : List String) (pl : Option String) (r : Bool),
        (HintSet.mk ks none pl r).toStr = String.intercalate "," ks := by
  constructor
  · intro ks p pl r
    rfl
  · intro ks pl r
    simp [HintSet.toStr]

/-- C5: `get_all_knobs` resolves, as a set, to the union of the hint-set's own
knobs and the knobs of every ancestor along the dependencies chain; with no
dependency it is exactly the own knob list. -/
theorem C5_resolved_knobs :
    (∀ (hs : HintSet) (k : String),
        k ∈ hs.get_all_knobs ↔ k ∈ hs.knobs ∨ ∃ a ∈ hs.ancestors, k ∈ a.knobs)
      ∧ ∀ (ks : List String) (pl : Option String) (r : Bool),
        (HintSet.mk ks none pl r).get_all_knobs = ks := by
  constructor
  · exact get_all_knobs_mem
  · intro ks pl r
    simp [HintSet.get_all_knobs]

/-- C4: the classification of fetched results is a pure function of the
baseline plan-hash, the failure-sentinel hash and the result hash, and the
three buckets (failed / alternative / same) are mutually exclusive and jointly
exhaustive for every combination of hashes, including when the baseline hash
equals the sentinel hash; moreover a singleton whose plan hash equals the
failure sentinel is marked `required` and added to the span. -/
theorem C4_classifier :
    (∀ d f h : Int,
        (isFailedB f h = true ∨ isAlternativeB d f h = true ∨ isSameB d f h = true)
          ∧ ¬(isFailedB f h = true ∧ isAlternativeB d f h = true)
          ∧ ¬(isFailedB f h = true ∧ isSameB d f h = true)
          ∧ ¬(isAlternativeB d f h = true ∧ isSameB d f h = true))
      ∧ ∀ (hashFn : String → Int) (oracle : List String → String) (catalog : List String)
          (far bw : Bool) (fuel : Nat) (k : String), k ∈ catalog →
          hashFn (oracle [k]) = failedHash hashFn →
          ∃ hs ∈ approximate_query_span hashFn oracle catalog far bw fuel,
            hs.knobs = [k] ∧ hs.required = true ∧ hs.plan = some (oracle [k]) := by
  constructor
  · intro d f h
    simp only [isFailedB, isAlternativeB, isSameB, Bool.and_eq_true, Bool.not_eq_true',
      Bool.not_eq_true, Bool.and_eq_false_iff, beq_iff_eq, bne_iff_ne, ne_eq,
      beq_eq_false_iff_ne, bne_eq_false_iff_eq, not_and, not_or, Bool.not_eq_eq_eq_not,
      Bool.not_true]
    by_cases hf : h = f <;> by_cases hd : h = d <;> (simp [hf, hd]; try tauto)
  · intro hashFn oracle catalog far bw fuel k hk hfail
    have hreq : HintSet.mk [k] none (some (oracle [k])) true
        ∈ requiredPart hashFn oracle catalog := by
      simp only [requiredPart, List.mem_map]
      refine ⟨HintSet.mk [k] none (some (oracle [k])) false, ?_, rfl⟩
      simp only [List.mem_filter]
      constructor
      · simp only [singletonResults, List.mem_map]
        exact ⟨HintSet.mk [k] none none false, ⟨k, hk, rfl⟩, rfl⟩
      · simp [isFailedB, phash, hfail]
    refine ⟨HintSet.mk [k] none (some (oracle [k])) true, ?_, rfl, rfl, rfl⟩
    cases far
    · rw [aqs_drain]
      exact List.mem_append_left _ (List.mem_cons_of_mem _ hreq)
    · cases bw
      · rw [aqs_iter]
        obtain ⟨t, ht, _⟩ := iterLoop_span_ext hashFn oracle (fun _ => True)
          (fun _ _ _ _ => trivial) fuel
          { queue := effectivePart hashFn oracle catalog
            pool := samePool hashFn oracle catalog
            span := baselineFetched oracle :: requiredPart hashFn oracle catalog }
          (fun _ _ => trivial)
        rw [ht]
        exact List.mem_append_left _ (List.mem_cons_of_mem _ hreq)
      · rw [aqs_batch]
        obtain ⟨t, ht, _⟩ := batchLoop_span_ext hashFn oracle
          (samePool hashFn oracle catalog) (fun _ => True) (fun _ _ _ => trivial) fuel
          (batchInit hashFn oracle catalog) (fun _ _ => trivial)
        rw [ht]
        exact List.mem_append_left _ (List.mem_cons_of_mem _ hreq)

/-- C4 witness: in the four-knob scenario the knob k4 breaks plan generation;
its singleton is marked required and lands in the span. -/
theorem C4_classifier_witness :
    "k4" ∈ cCatalog4 ∧ cHash (cOracle ["k4"]) = failedHash cHash
      ∧ ∃ hs ∈ approximate_query_span cHash cOracle cCatalog4 false false 0,
          hs.knobs = ["k4"] ∧ hs.required = true ∧ hs.plan = some (cOracle ["k4"]) :=
  ⟨by decide, by decide,
    C4_classifier.2 cHash cOracle cCatalog4 false false 0 "k4" (by decide) (by decide)⟩

/-- The fetched baseline is the populated empty-knob hint-set. -/
lemma baselineFetched_eq (oracle : List String → String) :
    baselineFetched oracle = HintSet.mk [] none (some (oracle [])) false := rfl

/-- A `requiredPart` entry is flagged required, parentless, and carries the
sentinel plan hash. -/
lemma requiredPart_props {hashFn : String → Int} {oracle : List String → String}
    {catalog : List String} {hs : HintSet} (h : hs ∈ requiredPart hashFn oracle catalog) :
    hs.required = true ∧ hs.dependencies = none
      ∧ phash hashFn hs.plan = failedHash hashFn := by
  obtain ⟨k, _, heq, hfail⟩ := mem_requiredPart h
  subst heq
  exact ⟨rfl, rfl, hfail⟩

/-- An `effectivePart` entry is unflagged, parentless, and its plan hash
differs from both the baseline hash and the sentinel hash. -/
lemma effectivePart_props {hashFn : String → Int} {oracle : List String → String}
    {catalog : List String} {hs : HintSet} (h : hs ∈ effectivePart hashFn oracle catalog) :
    hs.required = false ∧ hs.dependencies = none
      ∧ phash hashFn hs.plan ≠ failedHash hashFn
      ∧ phash hashFn hs.plan ≠ defaultHash hashFn oracle := by
  obtain ⟨k, _, heq, hne_d, hne_f⟩ := mem_effectivePart h
  subst heq
  exact ⟨rfl, rfl, hne_f, hne_d⟩

/-- An `iterRound` alternative is unflagged, chained under the popped
optimizer, and its plan hash is not the sentinel hash. -/
lemma iterRound_props {hashFn : String → Int} {oracle : List String → String}
    {E : HintSet} {pool : List HintSet} {c : HintSet} (h : c ∈ iterRound hashFn oracle E pool) :
    c.required = false ∧ c.dependencies = some E
      ∧ phash hashFn c.plan ≠ failedHash hashFn := by
  obtain ⟨⟨hs, _, hceq⟩, _, hne⟩ := mem_iterRound h
  subst hceq
  exact ⟨rfl, rfl, hne⟩

/-- A `roundAlts` alternative is unflagged, chained under the fetched
cumulative hint-set, and its plan hash is not the sentinel hash. -/
lemma roundAlts_props {hashFn : String → Int} {oracle : List String → String}
    {pool : List HintSet} {allEff : HintSet} {c : HintSet}
    (h : c ∈ roundAlts hashFn oracle pool allEff) :
    c.required = false ∧ c.dependencies = some (get_query_plan oracle allEff)
      ∧ phash hashFn c.plan ≠ failedHash hashFn := by
  obtain ⟨⟨hs, _, hceq⟩, _, hne⟩ := mem_roundAlts h
  subst hceq
  exact ⟨rfl, rfl, hne⟩

/-- C6: every hint-set in the returned span that carries `required = true` has
a plan hash equal to the failure sentinel's hash; equivalently, no hint-set
whose hash differs from the sentinel is ever marked required. -/
theorem C6_required_implies_failed_hash :
    ∀ (hashFn : String → Int) (oracle : List String → String) (catalog : List String)
      (far bw : Bool) (fuel : Nat) (hs : HintSet),
      hs ∈ approximate_query_span hashFn oracle catalog far bw fuel →
      hs.required = true → phash hashFn hs.plan = failedHash hashFn := by
  intro hashFn oracle catalog far bw fuel hs hmem hreq
  have hP : ∀ x ∈ baselineFetched oracle :: requiredPart hashFn oracle catalog,
      x.required = true → phash hashFn x.plan = failedHash hashFn := by
    intro x hx hxr
    rcases List.mem_cons.mp hx with h | h
    · rw [h, baselineFetched_eq] at hxr
      cases hxr
    · exact (requiredPart_props h).2.2
  cases far
  · rw [aqs_drain] at hmem
    rcases List.mem_append.mp hmem with h | h
    · exact hP hs h hreq
    · rw [(effectivePart_props h).1] at hreq
      cases hreq
  · cases bw
    · rw [aqs_iter] at hmem
      obtain ⟨t, ht, hPt⟩ := iterLoop_span_ext hashFn oracle
        (fun x => x.required = true → phash hashFn x.plan = failedHash hashFn)
        (fun E pool c hc hcr => by rw [(iterRound_props hc).1] at hcr; cases hcr) fuel
        { queue := effectivePart hashFn oracle catalog
          pool := samePool hashFn oracle catalog
          span := baselineFetched oracle :: requiredPart hashFn oracle catalog }
        (fun q hq hqr => by rw [(effectivePart_props hq).1] at hqr; cases hqr)
      rw [ht] at hmem
      rcases List.mem_append.mp hmem with h | h
      · exact hP hs h hreq
      · exact hPt hs h hreq
    · rw [aqs_batch] at hmem
      obtain ⟨t, ht, hPt⟩ := batchLoop_span_ext hashFn oracle
        (samePool hashFn oracle catalog)
        (fun x => x.required = true → phash hashFn x.plan = failedHash hashFn)
        (fun allEff c hc hcr => by rw [(roundAlts_props hc).1] at hcr; cases hcr) fuel
        (batchInit hashFn oracle catalog)
        (fun q hq hqr => by rw [(effectivePart_props hq).1] at hqr; cases hqr)
      rw [ht] at hmem
      rcases List.mem_append.mp hmem with h | h
      · exact hP hs h hreq
      · exact hPt hs h hreq

/-- C6 witness: the required hint-set of the four-knob scenario indeed carries
the sentinel hash. -/
theorem C6_required_implies_failed_hash_witness :
    HintSet.mk ["k4"] none (some "FAILED") true
        ∈ approximate_query_span cHash cOracle cCatalog4 false false 0
      ∧ phash cHash (HintSet.mk ["k4"] none (some "FAILED") true).plan = failedHash cHash :=
  ⟨by decide,
    C6_required_implies_failed_hash cHash cOracle cCatalog4 false false 0
      (HintSet.mk ["k4"] none (some "FAILED") true) (by decide) (by decide)⟩

/-- C7: for every run the returned span is the baseline (empty-knob) hint-set,
followed by the hint-sets classified required, followed by the hint-sets that
produced an alternative plan (unflagged, non-sentinel hash), and the span is
append-only: more fuel only ever appends to it (discovery order preserved). -/
theorem C7_span_structure :
    ∀ (hashFn : String → Int) (oracle : List String → String) (catalog : List String)
      (far bw : Bool) (fuel : Nat),
      (∃ alts, approximate_query_span hashFn oracle catalog far bw fuel
          = baselineFetched oracle :: (requiredPart hashFn oracle catalog ++ alts)
        ∧ ∀ a ∈ alts, a.required = false ∧ phash hashFn a.plan ≠ failedHash hashFn)
      ∧ ∃ t, approximate_query_span hashFn oracle catalog far bw (fuel + 1)
          = approximate_query_span hashFn oracle catalog far bw fuel ++ t := by
  intro hashFn oracle catalog far bw fuel
  constructor
  · cases far
    · refine ⟨effectivePart hashFn oracle catalog, by rw [aqs_drain]; simp, ?_⟩
      intro a ha
      exact ⟨(effectivePart_props ha).1, (effectivePart_props ha).2.2.1⟩
    · cases bw
      · obtain ⟨t, ht, hPt⟩ := iterLoop_span_ext hashFn oracle
          (fun a => a.required = false ∧ phash hashFn a.plan ≠ failedHash hashFn)
          (fun E pool c hc => ⟨(iterRound_props hc).1, (iterRound_props hc).2.2⟩) fuel
          { queue := effectivePart hashFn oracle catalog
            pool := samePool hashFn oracle catalog
            span := baselineFetched oracle :: requiredPart hashFn oracle catalog }
          (fun q hq => ⟨(effectivePart_props hq).1, (effectivePart_props hq).2.2.1⟩)
        refine ⟨t, ?_, hPt⟩
        rw [aqs_iter, ht]
        simp
      · obtain ⟨t, ht, hPt⟩ := batchLoop_span_ext hashFn oracle
          (samePool hashFn oracle catalog)
          (fun a => a.required = false ∧ phash hashFn a.plan ≠ failedHash hashFn)
          (fun allEff c hc => ⟨(roundAlts_props hc).1, (roundAlts_props hc).2.2⟩) fuel
          (batchInit hashFn oracle catalog)
          (fun q hq => ⟨(effectivePart_props hq).1, (effectivePart_props hq).2.2.1⟩)
        refine ⟨t, ?_, hPt⟩
        rw [aqs_batch, ht]
        simp [batchInit]
  · cases far
    · exact ⟨[], by rw [aqs_drain, aqs_drain]; simp⟩
    · cases bw
      · obtain ⟨t, ht⟩ := iterLoop_span_mono hashFn oracle fuel
          { queue := effectivePart hashFn oracle catalog
            pool := samePool hashFn oracle catalog
            span := baselineFetched oracle :: requiredPart hashFn oracle catalog }
        exact ⟨t, by rw [aqs_iter, aqs_iter]; exact ht⟩
      · obtain ⟨t, ht⟩ := batchLoop_span_mono hashFn oracle
          (samePool hashFn oracle catalog) fuel (batchInit hashFn oracle catalog)
        exact ⟨t, by rw [aqs_batch, aqs_batch]; exact ht⟩

/-- C7 witness: the span structure and append-only facts at the concrete
three-knob iterative run. -/
theorem C7_span_structure_witness :
    (∃ alts, approximate_query_span cHash cOracle cCatalog true false 6
        = baselineFetched cOracle :: (requiredPart cHash cOracle cCatalog ++ alts)
      ∧ ∀ a ∈ alts, a.required = false ∧ phash cHash a.plan ≠ failedHash cHash)
      ∧ ∃ t, approximate_query_span cHash cOracle cCatalog true false 7
          = approximate_query_span cHash cOracle cCatalog true false 6 ++ t :=
  C7_span_structure cHash cOracle cCatalog true false 6

/-- C8: in the batch strategy the cumulative hint-set's knob set never loses a
knob from one round to the next, and the loop stops exactly when a round
discovers zero new alternatives (`found_new_optimizers = len(...) > 0`). -/
theorem C8_batch_monotone_terminates :
    ∀ (hashFn : String → Int) (oracle : List String → String) (pool : List HintSet)
      (s : BatchState),
      (∀ k, k ∈ s.allEff.knobs → k ∈ (batchRound hashFn oracle pool s).allEff.knobs)
      ∧ ((batchRound hashFn oracle pool s).found = true
          ↔ roundAlts hashFn oracle pool s.allEff ≠ [])
      ∧ (∀ fuel, s.found = false → batchLoop hashFn oracle pool fuel s = s)
      ∧ ∀ fuel, s.found = true →
          batchLoop hashFn oracle pool (fuel + 1) s
            = batchLoop hashFn oracle pool fuel (batchRound hashFn oracle pool s) := by
  intro hashFn oracle pool s
  refine ⟨?_, ?_, ?_, ?_⟩
  · intro k hk
    exact mem_foldl_union_of_mem_acc (roundAlts hashFn oracle pool s.allEff) s.allEff k hk
  · simp [batchRound, List.length_pos]
  · intro fuel hf
    cases fuel <;> simp [batchLoop, hf]
  · intro fuel hf
    simp [batchLoop, hf]

/-- C8 witness: folding a batch round of the three-knob scenario keeps the
knob k1 in the cumulative union. -/
theorem C8_batch_monotone_terminates_witness :
    "k1" ∈ (batchInit cHash cOracle cCatalog).allEff.knobs
      ∧ "k1" ∈ (batchRound cHash cOracle (samePool cHash cOracle cCatalog)
          (batchInit cHash cOracle cCatalog)).allEff.knobs :=
  ⟨by decide,
    (C8_batch_monotone_terminates cHash cOracle (samePool cHash cOracle cCatalog)
      (batchInit cHash cOracle cCatalog)).1 "k1" (by decide)⟩

/-- C9: expansion-round candidates whose plan hash equals the failure sentinel
are silently discarded — a span entry with a parent is never required and
never carries the sentinel hash (so only the singleton round produces required
hint-sets), the alternatives of an expansion round never carry the sentinel
hash, and every knob folded into the batch union comes from the previous union
or from a non-failed alternative. -/
theorem C9_expansion_discards_failed :
    ∀ (hashFn : String → Int) (oracle : List String → String) (catalog : List String)
      (far bw : Bool) (fuel : Nat),
      (∀ hs ∈ approximate_query_span hashFn oracle catalog far bw fuel,
        (hs.required = true → hs.dependencies = none)
        ∧ (hs.dependencies ≠ none →
            phash hashFn hs.plan ≠ failedHash hashFn ∧ hs.required = false))
      ∧ (∀ (E : HintSet) (pool : List HintSet) (c : HintSet),
          c ∈ iterRound hashFn oracle E pool → phash hashFn c.plan ≠ failedHash hashFn)
      ∧ (∀ (pool : List HintSet) (allEff c : HintSet),
          c ∈ roundAlts hashFn oracle pool allEff → phash hashFn c.plan ≠ failedHash hashFn)
      ∧ ∀ (pool : List HintSet) (s : BatchState) (k : String),
          k ∈ (batchRound hashFn oracle pool s).allEff.knobs →
          k ∈ s.allEff.knobs
            ∨ ∃ c ∈ roundAlts hashFn oracle pool s.allEff,
                k ∈ c.knobs ∧ phash hashFn c.plan ≠ failedHash hashFn := by
  intro hashFn oracle catalog far bw fuel
  have hP1 : ∀ x ∈ baselineFetched oracle :: requiredPart hashFn oracle catalog,
      (x.required = true → x.dependencies = none)
        ∧ (x.dependencies ≠ none →
            phash hashFn x.plan ≠ failedHash hashFn ∧ x.required = false) := by
    intro x hx
    rcases List.mem_cons.mp hx with h | h
    · subst h
      exact ⟨fun _ => rfl, fun hd => absurd rfl hd⟩
    · exact ⟨fun _ => (requiredPart_props h).2.1,
        fun hd => absurd (requiredPart_props h).2.1 hd⟩
  have hPeff : ∀ x ∈ effectivePart hashFn oracle catalog,
      (x.required = true → x.dependencies = none)
        ∧ (x.dependencies ≠ none →
            phash hashFn x.plan ≠ failedHash hashFn ∧ x.required = false) := by
    intro x hx
    exact ⟨fun _ => (effectivePart_props hx).2.1,
      fun hd => absurd (effectivePart_props hx).2.1 hd⟩
  refine ⟨?_, ?_, ?_, ?_⟩
  · intro hs hmem
    cases far
    · rw [aqs_drain] at hmem
      rcases List.mem_append.mp hmem with h | h
      · exact hP1 hs h
      · exact hPeff hs h
    · cases bw
      · rw [aqs_iter] at hmem
        obtain ⟨t, ht, hPt⟩ := iterLoop_span_ext hashFn oracle
          (fun x => (x.required = true → x.dependencies = none)
            ∧ (x.dependencies ≠ none →
                phash hashFn x.plan ≠ failedHash hashFn ∧ x.required = false))
          (fun E pool c hc =>
            ⟨fun hr => absurd hr (by rw [(iterRound_props hc).1]; exact Bool.false_ne_true),
              fun _ => ⟨(iterRound_props hc).2.2, (iterRound_props hc).1⟩⟩) fuel
          { queue := effectivePart hashFn oracle catalog
            pool := samePool hashFn oracle catalog
            span := baselineFetched oracle :: requiredPart hashFn oracle catalog }
          hPeff
        rw [ht] at hmem
        rcases List.mem_append.mp hmem with h | h
        · exact hP1 hs h
        · exact hPt hs h
      · rw [aqs_batch] at hmem
        obtain ⟨t, ht, hPt⟩ := batchLoop_span_ext hashFn oracle
          (samePool hashFn oracle catalog)
          (fun x => (x.required = true → x.dependencies = none)
            ∧ (x.dependencies ≠ none →
                phash hashFn x.plan ≠ failedHash hashFn ∧ x.required = false))
          (fun allEff c hc =>
            ⟨fun hr => absurd hr (by rw [(roundAlts_props hc).1]; exact Bool.false_ne_true),
              fun _ => ⟨(roundAlts_props hc).2.2, (roundAlts_props hc).1⟩⟩) fuel
          (batchInit hashFn oracle catalog)
          hPeff
        rw [ht] at hmem
        rcases List.mem_append.mp hmem with h | h
        · exact hP1 hs h
        · exact hPt hs h
  · exact fun E pool c hc => (iterRound_props hc).2.2
  · exact fun pool allEff c hc => (roundAlts_props hc).2.2
  · intro pool s k hk
    rcases mem_foldl_union (roundAlts hashFn oracle pool s.allEff) s.allEff k hk with h | ⟨c, hc, hkc⟩
    · exact Or.inl h
    · exact Or.inr ⟨c, hc, hkc, (roundAlts_props hc).2.2⟩

/-- The first alternative discovered under the effective singleton k1 in the
three-knob iterative run. -/
def exAlt : HintSet :=
  HintSet.mk ["k3"] (some (HintSet.mk ["k1"] none (some "P1") false)) (some "P3") false

/-- C9 witness: the chained span entry of the concrete iterative run is not
required and does not carry the sentinel hash. -/
theorem C9_expansion_discards_failed_witness :
    exAlt ∈ approximate_query_span cHash cOracle cCatalog true false 6
      ∧ phash cHash exAlt.plan ≠ failedHash cHash ∧ exAlt.required = false :=
  ⟨by decide,
    ((C9_expansion_discards_failed cHash cOracle cCatalog true false 6).1 exAlt
      (by decide)).2 (by decide)⟩

/-- C10: the entry point runs the span search with exploration disabled, so
every hint-set of the span it persists has an absent dependencies reference
and no `register_optimizer_dependency` operation is ever emitted. -/
theorem C10_run_no_dependencies :
    ∀ (hashFn : String → Int) (oracle : List String → String) (catalog : List String)
      (fuel : Nat) (query_path : String),
      (∀ hs ∈ approximate_query_span hashFn oracle catalog false false fuel,
        hs.dependencies = none)
      ∧ ∀ op ∈ run_get_query_span hashFn oracle catalog fuel query_path,
          ∀ q c p t, op ≠ StorageOp.registerOptimizerDependency q c p t := by
  intro hashFn oracle catalog fuel query_path
  have hdeps : ∀ hs ∈ approximate_query_span hashFn oracle catalog false false fuel,
      hs.dependencies = none := by
    intro hs hmem
    rw [aqs_drain] at hmem
    rcases List.mem_append.mp hmem with h | h
    · rcases List.mem_cons.mp h with h1 | h1
      · subst h1
        rfl
      · exact (requiredPart_props h1).2.1
    · exact (effectivePart_props h).2.1
  refine ⟨hdeps, ?_⟩
  intro op hop
  rcases List.mem_cons.mp hop with h | h
  · subst h
    intro q c p t hcon
    cases hcon
  · exact persistSpan_no_dep query_path _ hdeps op h

/-- C10 witness: on the four-knob run the effective singleton k1 is persisted
without a parent, and the first emitted operation is no dependency edge. -/
theorem C10_run_no_dependencies_witness :
    (HintSet.mk ["k1"] none (some "P1") false).dependencies = none
      ∧ StorageOp.registerQuery "q1"
          ≠ StorageOp.registerOptimizerDependency "q1" "k1" "k1"
              "query_effective_optimizers_dependencies" :=
  ⟨(C10_run_no_dependencies cHash cOracle cCatalog4 0 "q1").1
      (HintSet.mk ["k1"] none (some "P1") false) (by decide),
    (C10_run_no_dependencies cHash cOracle cCatalog4 0 "q1").2
      (StorageOp.registerQuery "q1") (by decide) "q1" "k1" "k1"
      "query_effective_optimizers_dependencies"⟩

/-- C1 (code bug): in the concrete three-knob iterative run the frontier is
fully drained (the run completes), yet the pending pool is exactly what it was
after the singleton round — still holding the k3 singleton — because the
deletion test `hintsets[i] == alternative_optimizer` compares a pooled
singleton with a freshly constructed child by reference identity and never
fires; consequently the pending knob k3 is consumed twice and appears in the
span as a descendant of the two different ancestors k1 and k2. -/
theorem C1_same_knob_under_two_ancestors :
    (spanIter.filter (fun hs => hs.knobs == ["k3"])).map
        (fun hs => hs.dependencies.map HintSet.knobs) = [some ["k1"], some ["k2"]]
      ∧ (iterLoop cHash cOracle 6
          { queue := effectivePart cHash cOracle cCatalog
            pool := samePool cHash cOracle cCatalog
            span := baselineFetched cOracle :: requiredPart cHash cOracle cCatalog }).queue = []
      ∧ (iterLoop cHash cOracle 6
          { queue := effectivePart cHash cOracle cCatalog
            pool := samePool cHash cOracle cCatalog
            span := baselineFetched cOracle :: requiredPart cHash cOracle cCatalog }).pool
          = samePool cHash cOracle cCatalog
      ∧ (samePool cHash cOracle cCatalog).map HintSet.knobs = [["k3"]] := by
  decide

/-- A span entry with a one-knob parent, for claim C3. -/
def exParent : HintSet := HintSet.mk ["k2"] none (some "P2") false

/-- A persisted hint-set chained under `exParent`. -/
def exChild : HintSet := HintSet.mk ["k1"] (some exParent) (some "P3") false

/-- C3 (code bug): for a span entry with a parent, exactly one dependency edge
is emitted, but both its child and parent keys are the entry's own canonical
knob key "k1" — the parent's canonical key "k2" is not used. -/
theorem C3_dependency_edge_keys :
    persistSpan "q1" [exChild]
        = [StorageOp.registerOptimizer "q1" "k1" "query_effective_optimizers",
           StorageOp.registerOptimizerDependency "q1" "k1" "k1"
             "query_effective_optimizers_dependencies"]
      ∧ sortedKnobKey exParent = "k2"
      ∧ sortedKnobKey exChild = "k1" := by
  decide
